import Mathlib

/-!
Shallow embedding of the bookomol PDF-condensation pipeline.

The embedding follows the TypeScript sources:
  * `src/types/chapter.ts`, `src/types/book.ts` — data model,
  * `PdfProcessor` (`src/lib/pdf/processor.ts`) — document manipulation,
  * `GeminiClient.identifyChapters` (`src/lib/ai/gemini-client.ts`) — AI-response parsing,
  * `BookService` (`src/lib/services/book.service.ts`) — the orchestrator,
  * the SQS processing-queue handler (`src/functions/processing.ts`).

External effects (S3 reads/writes, DynamoDB, the Gemini model, the pdf-lib /
pdf-parse libraries) are modelled as explicit inputs: an AI call or a library
parse becomes an `Except`/`Option` value supplied to the embedded function,
and the durable `Book` record becomes explicit state that each operation
takes and returns.  A PDF document is modelled as its list of pages (page
content abstract), and an uploaded artifact as the list of pages it holds.
-/

namespace Bookomol

/-- ChapterStatus enum from src/types/chapter.ts. -/
inductive ChapterStatus where
  | pending
  | processing
  | completed
  | skipped
deriving DecidableEq, Repr

/-- BookStatus enum from src/types/book.ts. -/
inductive BookStatus where
  | uploading
  | queued
  | processing
  | completed
  | failed
deriving DecidableEq, Repr

/-- CondensingLevel from src/types/condensingOptions.ts. -/
inductive CondensingLevel where
  | light
  | medium
  | heavy
deriving DecidableEq, Repr

/-- One page range reported by the AI (interface ChapterInfo,
src/types/chapter.ts).  `isEssential` is optional (`isEssential?: boolean`)
in TypeScript; a missing value is falsy in `info.isEssential ? _ : _` and in
`info.isEssential || true` exactly as `false` is, so a `Bool` field is a
faithful model. -/
structure ChapterInfo where
  title : String
  startPage : Int
  endPage : Int
  isEssential : Bool
deriving DecidableEq, Repr

/-- A stored per-chapter artifact: the list of pages of the condensed
chapter PDF kept under `condensed/{bookId}/{chapterId}.pdf`.  Page content
is opaque. -/
def Doc := List String
deriving DecidableEq, Repr

/-- Chapter record (interface Chapter, src/types/chapter.ts).
`condensedDoc` models `condensedUrl` together with the artifact the URL
points to: the S3 key is a deterministic function of the book and chapter
ids, so the stored bytes can be carried inline. -/
structure Chapter where
  chapterId : String
  title : String
  pageStart : Int
  pageEnd : Int
  isEssential : Bool
  status : ChapterStatus
  condensedDoc : Option Doc
deriving DecidableEq, Repr

/-- Book record (interface Book, src/types/book.ts), restricted to the
fields the pipeline logic reads or writes.  `condensedDoc` models the final
`condensedUrl` artifact.  Timestamps and the chat-routing fields are not
modelled: no branching in the pipeline depends on them. -/
structure Book where
  bookId : String
  title : String
  author : Option String
  pageCount : Nat
  condensingLevel : CondensingLevel
  status : BookStatus
  progress : Nat
  currentStep : String
  chapters : List Chapter
  error : Option String
  condensedDoc : Option Doc
deriving DecidableEq, Repr

namespace PdfProcessor

/-- PdfProcessor.extractChapter (src/lib/pdf/processor.ts, lines 33-73).
The source loads the buffer, clamps `startPage` with `Math.max(1, _)` and
`endPage` with `Math.min(totalPages, _)`, throws on an empty clamped range,
and otherwise copies pages `startPage-1 .. endPage-1` (0-based) into a new
document.  The loaded document is its page list; `copyPages` over the
0-based index list becomes a `filterMap` of `List.get?` over those
indices. -/
def extractChapter (pages : List α) (startPage endPage : Int) : Except String (List α) :=
  let totalPages : Int := pages.length
  let s := max 1 startPage
  let e := min totalPages endPage
  if s > e then
    .error ("Invalid page range: " ++ toString s ++ "-" ++ toString e)
  else
    let pageIndices := List.range' (s - 1).toNat (e - s + 1).toNat
    .ok (pageIndices.filterMap (fun i => pages.get? i))

/-- PdfProcessor.combineChapters (src/lib/pdf/processor.ts, lines 75-120):
for each chapter buffer in order, copy all of its pages onto the end of the
combined document — concatenation of the page lists. -/
def combineChapters (chapterBuffers : List (List α)) : List α :=
  chapterBuffers.flatten

/-- JavaScript `text.split('\n')`: split on every newline, keeping empty
pieces; the empty string yields one empty piece.  Text is modelled as its
character list. -/
def splitOnNewline : List Char → List (List Char)
  | [] => [[]]
  | c :: rest =>
    if c = '\n' then [] :: splitOnNewline rest
    else
      match splitOnNewline rest with
      | [] => [[c]]
      | l :: ls => (c :: l) :: ls

/-- The inner rendering loop of PdfProcessor.createTextPdf (lines 149-161):
starting at `yPosition = 720`, stop as soon as `yPosition < 72` (the margin),
otherwise draw `line.substring(0, 80)` and move down by `fontSize + 2 = 14`
points. -/
def drawLines : Nat → List (List Char) → List (List Char)
  | _, [] => []
  | y, line :: rest =>
    if y < 72 then []
    else line.take 80 :: drawLines (y - 14) rest

/-- The page loop of PdfProcessor.createTextPdf (line 145): one page per
block of `linesPerPage = 50` input lines. -/
def toPageBlocks : List (List Char) → List (List (List Char))
  | [] => []
  | a :: rest => ((a :: rest).take 50) :: toPageBlocks ((a :: rest).drop 50)
termination_by l => l.length
decreasing_by simp; omega

/-- PdfProcessor.createTextPdf (src/lib/pdf/processor.ts, lines 122-177),
as the text drawn onto each produced page: split the condensed text into
lines, cut pages of 50 lines, and run the y-position loop on each page. -/
def createTextPdf (text : List Char) : List (List (List Char)) :=
  (toPageBlocks (splitOnNewline text)).map (drawLines 720)

/-- PdfProcessor.validatePdf (src/lib/pdf/processor.ts, lines 179-213):
`%PDF` header check on the first four bytes, then minimum size 1KB, then
maximum size 100MB. -/
def validatePdf (bytes : List Char) : Bool × Option String :=
  if ¬ (bytes.take 4 = ['%', 'P', 'D', 'F']) then
    (false, some "File does not appear to be a valid PDF")
  else if bytes.length < 1024 then
    (false, some "File is too small to be a valid PDF")
  else if bytes.length > 100 * 1024 * 1024 then
    (false, some "File is too large (maximum 100MB allowed)")
  else
    (true, none)

end PdfProcessor

namespace GeminiClient

/-- Position of the first `[` in the response text, if any — where the
regex `/\[[\s\S]*\]/` starts matching. -/
def firstOpenBracket : List Char → Option Nat
  | [] => none
  | c :: rest =>
    if c = '[' then some 0
    else (firstOpenBracket rest).map (· + 1)

/-- Position of the last `]` in the response text, if any — where the
greedy `[\s\S]*` of the regex stops. -/
def lastCloseBracket : List Char → Option Nat
  | [] => none
  | c :: rest =>
    match lastCloseBracket rest with
    | some j => some (j + 1)
    | none => if c = ']' then some 0 else none

/-- The `response.match(/\[[\s\S]*\]/)` step of
GeminiClient.identifyChapters (src/lib/ai/gemini-client.ts, line 391): the
regex matches from the first `[` greedily to the last `]` behind it;
without such a pair there is no match. -/
def extractJsonArray (s : List Char) : Option (List Char) :=
  match firstOpenBracket s, lastCloseBracket s with
  | some i, some j =>
    if i < j then some ((s.drop i).take (j - i + 1)) else none
  | _, _ => none

/-- GeminiClient.identifyChapters (src/lib/ai/gemini-client.ts, lines
360-408), from the model response text onwards.  The Gemini call itself is
external, so the response text is an input; `JSON.parse` of the extracted
blob is the external JSON library, passed as a fallible parse function.  A
missing match raises `No valid JSON found in AI response`. -/
def identifyChapters (response : List Char)
    (jsonParse : List Char → Option (List ChapterInfo)) :
    Except String (List ChapterInfo) :=
  match extractJsonArray response with
  | none => .error "No valid JSON found in AI response"
  | some blob =>
    match jsonParse blob with
    | none => .error "Unexpected token in JSON"
    | some chapters => .ok chapters

end GeminiClient

namespace BookService

/-- BookService.markFailed (src/lib/services/book.service.ts, lines
375-397): set the status to failed and record the error detail.  The
progress field is not touched; the failure notification it sends is outside
the stored record. -/
def markFailed (b : Book) (errorMessage : String) : Book :=
  { b with status := .failed, error := some errorMessage }

/-- Mutation of the chapter object found by
`book.chapters.find(ch => ch.chapterId === chapterId)`: JavaScript `find`
returns the first match, and the in-place mutation touches only that
element. -/
def updateFirst (p : α → Bool) (f : α → α) : List α → List α
  | [] => []
  | a :: rest => if p a then f a :: rest else a :: updateFirst p f rest

/-- The successful path of BookService.processChapters (src/lib/services/
book.service.ts, lines 166-193), after identifyChapters returned a chapter
list: build the Chapter records — note the source writes
`isEssential: info.isEssential || true` while the status ternary uses
`info.isEssential` directly — store them with progress 25, and queue one
condensing message per chapter whose `isEssential` field holds.  Returns
the updated book and the queued chapter ids. -/
def processChapters (b : Book) (infos : List ChapterInfo) : Book × List String :=
  let chapters : List Chapter := infos.enum.map (fun p =>
    { chapterId := b.bookId ++ "_chapter_" ++ toString (p.1 + 1)
      title := p.2.title
      pageStart := p.2.startPage
      pageEnd := p.2.endPage
      isEssential := p.2.isEssential || true
      status := if p.2.isEssential then .pending else .skipped
      condensedDoc := none })
  let b' := { b with
    chapters := chapters
    progress := 25
    currentStep := "Found " ++ toString chapters.length ++
      " chapters, processing essential ones..." }
  let essentialChapters := chapters.filter (fun ch => ch.isEssential)
  (b', essentialChapters.map (fun ch => ch.chapterId))

/-- BookService.processChapters including its AI-parsing failure path
(lines 195-199): on an identifyChapters error the catch block marks the
book failed with `Chapter processing failed: ...` and queues nothing. -/
def processChaptersE (b : Book) (segRes : Except String (List ChapterInfo)) :
    Book × List String :=
  match segRes with
  | .error e => (markFailed b ("Chapter processing failed: " ++ e), [])
  | .ok infos => processChapters b infos

/-- BookService.processChapters run from the raw Gemini response text:
identifyChapters feeds the catch block of processChapters on failure. -/
def processChaptersFromText (b : Book) (response : List Char)
    (jsonParse : List Char → Option (List ChapterInfo)) : Book × List String :=
  processChaptersE b (GeminiClient.identifyChapters response jsonParse)

/-- Outcome of one BookService.condenseChapter call: the book state as
left in the store, whether a combine message was queued, and the error the
method re-threw, if any. -/
structure CondenseStep where
  book : Book
  queuedCombine : Bool
  thrown : Option String
deriving DecidableEq, Repr

/-- Math.round((completed / essential) * 60) over the rationals:
`⌊60c/e + 1/2⌋ = ⌊(120c + e) / 2e⌋`. -/
def roundSixty (c e : Nat) : Nat :=
  (120 * c + e) / (2 * e)

/-- BookService.condenseChapter (src/lib/services/book.service.ts, lines
202-300).  The chapter pipeline between the two status writes — download,
extractChapter, extractText, the Gemini condense call, createTextPdf, and
the S3 upload — is network/AI territory collapsed into the `res` input:
`.ok doc` is the uploaded condensed artifact, `.error` any throw from that
span.  On success the chapter becomes completed with its artifact recorded,
then the method queues combining when every `isEssential` chapter is
completed and otherwise writes `30 + Math.round((completed/essential)*60)`
as progress.  On failure the catch block (lines 282-299) re-reads the book,
marks the chapter skipped, and re-throws.  A missing chapter throws before
any write. -/
def condenseChapter (b : Book) (chapterId : String)
    (res : Except String Doc) : CondenseStep :=
  match b.chapters.find? (fun ch => ch.chapterId == chapterId) with
  | none => { book := b, queuedCombine := false, thrown := some "Chapter not found" }
  | some _ =>
    let bA := { b with chapters :=
      (updateFirst (fun ch => ch.chapterId == chapterId)
        (fun ch => { ch with status := .processing }) b.chapters) }
    match res with
    | .error e =>
      { book := { bA with chapters :=
          (updateFirst (fun ch => ch.chapterId == chapterId)
            (fun ch => { ch with status := .skipped }) bA.chapters) }
        queuedCombine := false
        thrown := some e }
    | .ok doc =>
      let bC := { bA with chapters :=
        (updateFirst (fun ch => ch.chapterId == chapterId)
          (fun ch => { ch with status := .completed, condensedDoc := some doc })
          bA.chapters) }
      let essentialChapters := bC.chapters.filter (fun ch => ch.isEssential)
      let completedChapters := essentialChapters.filter
        (fun ch => ch.status == .completed)
      if completedChapters.length == essentialChapters.length then
        { book := bC, queuedCombine := true, thrown := none }
      else
        { book := { bC with
            progress := 30 + roundSixty completedChapters.length essentialChapters.length
            currentStep := "Condensed " ++ toString completedChapters.length ++ "/" ++
              toString essentialChapters.length ++ " chapters..." }
          queuedCombine := false
          thrown := none }

/-- Outcome of one BookService.combineCondensedChapters call: the stored
book and the error the method re-threw, if any. -/
structure CombineStep where
  book : Book
  thrown : Option String
deriving DecidableEq, Repr

/-- BookService.combineCondensedChapters (src/lib/services/book.service.ts,
lines 302-373): collect the chapters whose status is completed and that
carry a condensed artifact, in chapter-list order; with none of them the
thrown `No condensed chapters to combine` lands in the catch block, which
marks the book failed with `Final assembly failed: ...` and re-throws;
otherwise concatenate the artifacts with PdfProcessor.combineChapters and
mark the book completed at progress 100. -/
def combineCondensedChapters (b : Book) : CombineStep :=
  let completedChapters := b.chapters.filter
    (fun ch => ch.status == .completed && ch.condensedDoc.isSome)
  if completedChapters.length == 0 then
    { book := markFailed b "Final assembly failed: No condensed chapters to combine"
      thrown := some "No condensed chapters to combine" }
  else
    let chapterBuffers := completedChapters.filterMap (fun ch => ch.condensedDoc)
    { book := { b with
        status := .completed
        progress := 100
        currentStep := "Condensed book ready for download!"
        condensedDoc := some (PdfProcessor.combineChapters chapterBuffers) }
      thrown := none }

/-- One message of the processing-queue consumer
(src/functions/processing.ts): `condense_chapter` and `combine_chapters`
dispatches, carrying the externally-determined outcome of the condensation
pipeline for the chapter. -/
inductive ChapterEvent where
  | condense (chapterId : String) (res : Except String Doc)
  | combine
deriving Repr

/-- The processing-queue handler (src/functions/processing.ts, lines
19-70) for one record: run the dispatched BookService method, and in the
catch block (lines 49-69) mark the whole book failed with
`Processing failed: ...` whenever the method threw. -/
def handleMessage (b : Book) (e : ChapterEvent) : Book :=
  match e with
  | .condense chapterId res =>
    let r := condenseChapter b chapterId res
    match r.thrown with
    | some m => markFailed r.book ("Processing failed: " ++ m)
    | none => r.book
  | .combine =>
    let r := combineCondensedChapters b
    match r.thrown with
    | some m => markFailed r.book ("Processing failed: " ++ m)
    | none => r.book

/-- The book record as BookService.startProcessing (lines 119-146) leaves
it when the job enters processing: status processing, progress 10, no
chapters yet. -/
def jobStart (bookId title : String) (author : Option String) (pageCount : Nat)
    (level : CondensingLevel) : Book :=
  { bookId := bookId
    title := title
    author := author
    pageCount := pageCount
    condensingLevel := level
    status := .processing
    progress := 10
    currentStep := "Starting processing..."
    chapters := []
    error := none
    condensedDoc := none }

/-- A sequence of chapter completions applied through
BookService.condenseChapter, one successful condensation per list entry
`(chapterId, artifact)`, in the given completion order. -/
def applyCompletions (b : Book) (l : List (String × Doc)) : Book :=
  l.foldl (fun b p => (condenseChapter b p.1 (.ok p.2)).book) b

/-- Invariant carried along a processing job's event trace: every stored
chapter's essential flag holds (the `|| true` in processChapters forces
this), and while the job is processing, the stored progress is at most the
25 written at segmentation or else one of the condensation milestones
`30 + round(60c/e)` for a completed count c no larger than the current
one. -/
def ProgressInv (b : Book) : Prop :=
  (∀ ch ∈ b.chapters, ch.isEssential = true) ∧
  (b.status = .processing →
    b.progress ≤ 25 ∨
    ∃ c, c ≤ (b.chapters.filter (fun ch => ch.status == ChapterStatus.completed)).length ∧
      b.progress = 30 + roundSixty c b.chapters.length)

/-- An uploaded byte buffer together with what the external PDF libraries
make of it: `parsedText` is the pdf-parse extraction result (`none` when
`pdfParse` throws) and `parsed` the pdf-lib `PDFDocument.load` result as
the list of pages (`none` when loading throws, so the page count cannot be
determined). -/
structure PdfBuffer where
  bytes : List Char
  parsedText : Option String
  parsed : Option (List String)
deriving DecidableEq, Repr

/-- GeminiClient.extractBookMetadata result: best effort `{title?,
author?}`; the method returns an empty object instead of throwing, so it is
a plain input here (the unused pageCount field is dropped). -/
structure BookMetadata where
  title : Option String
  author : Option String
deriving DecidableEq, Repr

/-- BookService.uploadOriginalPdf (src/lib/services/book.service.ts, lines
74-117): validate the buffer, extract text and page count, take the AI
metadata, and move the record to queued at progress 5; any throw lands in
the catch block which calls markFailed with `Upload failed: ...`.  The S3
put is not modelled (its failure would take the same catch path). -/
def uploadOriginalPdf (b : Book) (buf : PdfBuffer) (meta : BookMetadata) : Book :=
  let v := PdfProcessor.validatePdf buf.bytes
  if v.1 = false then
    markFailed b ("Upload failed: " ++ v.2.getD "")
  else
    match buf.parsedText with
    | none => markFailed b "Upload failed: PDF text extraction error"
    | some _ =>
      match buf.parsed with
      | none => markFailed b "Upload failed: PDF load error"
      | some pages =>
        { b with
          pageCount := pages.length
          title := (meta.title.getD ("Book " ++ b.bookId))
          author := meta.author
          status := .queued
          progress := 5
          currentStep := "PDF uploaded, queued for processing..." }

/-- Concrete chapter record used by the closed theorems and witnesses. -/
def sampleChapter (chapterId : String) (ess : Bool) (st : ChapterStatus)
    (doc : Option Doc) : Chapter :=
  { chapterId := chapterId
    title := "Ch"
    pageStart := 1
    pageEnd := 2
    isEssential := ess
    status := st
    condensedDoc := doc }

/-- Concrete mid-processing book record used by the closed theorems and
witnesses. -/
def sampleBook (chapters : List Chapter) : Book :=
  { bookId := "b1"
    title := "T"
    author := none
    pageCount := 10
    condensingLevel := .medium
    status := .processing
    progress := 25
    currentStep := ""
    chapters := chapters
    error := none
    condensedDoc := none }

/-- Concrete just-created book record, as BookService.createBook leaves
it. -/
def sampleFreshBook : Book :=
  { sampleBook [] with status := .uploading, progress := 0 }

end BookService

section Theorems

/-- Below the margin nothing is drawn, whatever lines remain. -/
theorem drawLines_stop {y : Nat} (l : List (List Char)) (h : y < 72) :
    PdfProcessor.drawLines y l = [] := by
  cases l with
  | nil => rfl
  | cons a rest => simp [PdfProcessor.drawLines, h]

/-- Starting the y-position loop at `76 + 14 * k` draws exactly the first
`k + 1` lines, each truncated to 80 characters. -/
theorem drawLines_take (k : Nat) (l : List (List Char)) :
    PdfProcessor.drawLines (76 + 14 * k) l = (l.take (k + 1)).map (fun s => s.take 80) := by
  induction k generalizing l with
  | zero =>
    cases l with
    | nil => rfl
    | cons a rest =>
      rw [PdfProcessor.drawLines]
      rw [if_neg (by omega)]
      have h14 : 76 + 14 * 0 - 14 = 62 := by omega
      rw [h14, drawLines_stop rest (by omega)]
      simp
  | succ k ih =>
    cases l with
    | nil => rfl
    | cons a rest =>
      rw [PdfProcessor.drawLines]
      rw [if_neg (by omega)]
      have h14 : 76 + 14 * (k + 1) - 14 = 76 + 14 * k := by omega
      rw [h14, ih rest]
      simp

/-- Claim C10: the Document Renderer draws, on each page, exactly the first
47 of that page's 50-line block — lines whose y-position would fall below
the 72-point margin are dropped — and of each drawn line only the first 80
characters; consequently some condensed texts lose part of their content,
e.g. a single 81-character line. -/
theorem createTextPdf_truncates :
    (∀ text : List Char,
      PdfProcessor.createTextPdf text =
        (PdfProcessor.toPageBlocks (PdfProcessor.splitOnNewline text)).map
          (fun block => (block.take 47).map (fun s => s.take 80))) ∧
    (∃ text : List Char,
      (PdfProcessor.createTextPdf text).flatten ≠ PdfProcessor.splitOnNewline text) := by
  constructor
  · intro text
    unfold PdfProcessor.createTextPdf
    congr 1
    funext block
    have h720 : (720 : Nat) = 76 + 14 * 46 := by omega
    rw [h720, drawLines_take 46 block]
  · refine ⟨List.replicate 81 'a', ?_⟩
    have h1 : PdfProcessor.splitOnNewline (List.replicate 81 'a') =
        [List.replicate 81 'a'] := by decide
    have h2 : PdfProcessor.toPageBlocks [List.replicate 81 'a'] =
        [[List.replicate 81 'a']] := by
      rw [PdfProcessor.toPageBlocks]
      norm_num
      rw [PdfProcessor.toPageBlocks]
    rw [PdfProcessor.createTextPdf, h1, h2]
    decide

/-- Reading index list `[a, a+1, ..., a+n-1]` out of `l` succeeds page by
page and yields the contiguous slice, provided the whole range is in
bounds. -/
theorem filterMap_get?_range' (l : List α) (a n : Nat) (h : a + n ≤ l.length) :
    (List.range' a n).filterMap (fun i => l.get? i) = (l.drop a).take n := by
  induction n generalizing a with
  | zero => simp
  | succ n ih =>
    have ha : a < l.length := by omega
    rw [List.range'_succ]
    have hget : l.get? a = some (l.get ⟨a, ha⟩) := by
      simp [List.get?_eq_getElem?, List.getElem?_eq_getElem ha]
    have hdrop : l.drop a = l.get ⟨a, ha⟩ :: l.drop (a + 1) := by
      rw [List.drop_eq_getElem_cons ha]
      simp
    rw [List.filterMap_cons, hget, hdrop]
    simp only [List.take_succ_cons]
    rw [ih (a + 1) (by omega)]

/-- Claim C7: chapter materialization clamps the start page to at least 1
and the end page to at most the page count, fails exactly when the clamped
start exceeds the clamped end, and otherwise returns exactly the pages from
clamped start through clamped end — a non-empty slice.  In particular a
span reaching outside the document is clamped rather than rejected. -/
theorem extractChapter_clamps (pages : List α) (startPage endPage : Int) :
    (let s := max 1 startPage
     let e := min (pages.length : Int) endPage
     ((∃ msg, PdfProcessor.extractChapter pages startPage endPage = .error msg) ↔ s > e) ∧
     (s ≤ e →
       PdfProcessor.extractChapter pages startPage endPage =
         .ok ((pages.drop (s - 1).toNat).take (e - s + 1).toNat) ∧
       ((pages.drop (s - 1).toNat).take (e - s + 1).toNat).length = (e - s + 1).toNat ∧
       (pages.drop (s - 1).toNat).take (e - s + 1).toNat ≠ [])) := by
  intro s e
  have hs1 : 1 ≤ s := le_max_left _ _
  constructor
  · constructor
    · rintro ⟨msg, hmsg⟩
      by_contra hle
      push_neg at hle
      simp only [PdfProcessor.extractChapter, s, e] at hmsg
      rw [if_neg (by exact not_lt.mpr hle)] at hmsg
      exact Except.noConfusion hmsg
    · intro hgt
      refine ⟨"Invalid page range: " ++ toString s ++ "-" ++ toString e, ?_⟩
      simp only [PdfProcessor.extractChapter, s, e]
      rw [if_pos hgt]
  · intro hle
    have heLen : e ≤ (pages.length : Int) := min_le_left _ _
    have hbound : (s - 1).toNat + (e - s + 1).toNat ≤ pages.length := by omega
    have hok : PdfProcessor.extractChapter pages startPage endPage =
        .ok ((pages.drop (s - 1).toNat).take (e - s + 1).toNat) := by
      simp only [PdfProcessor.extractChapter, s, e]
      rw [if_neg (by exact not_lt.mpr hle)]
      rw [filterMap_get?_range' pages _ _ hbound]
    refine ⟨hok, ?_, ?_⟩
    · rw [List.length_take, List.length_drop]
      omega
    · intro hnil
      have := congrArg List.length hnil
      rw [List.length_take, List.length_drop] at this
      simp at this
      omega

/-- Witness for C7 at a concrete document and an out-of-bounds span: three
pages, requested span `[-5, 99]`, clamped to `[1, 3]` and materialized in
full rather than rejected. -/
theorem extractChapter_clamps_witness :
    PdfProcessor.extractChapter [10, 20, 30] (-5) 99 = .ok [10, 20, 30] ∧
    ([10, 20, 30] : List Nat) ≠ [] := by
  have h := (extractChapter_clamps ([10, 20, 30] : List Nat) (-5) 99).2 (by decide)
  refine ⟨?_, by decide⟩
  have h1 := h.1
  simpa using h1

/-- Claim C1 (code bug): a single chapter condensation failure does mark
the whole job failed.  On a one-chapter book whose condensation pipeline
throws, BookService.condenseChapter marks the chapter skipped and
re-throws, and the processing-queue handler's catch block then calls
markFailed on the book — the job does not continue, its status becomes
failed, contradicting the partial-success policy and the code's own
comments (`Mark chapter as failed but continue with others`, `Mark book as
failed if it's a critical error`). -/
theorem handler_fails_job_on_single_chapter_failure :
    (BookService.handleMessage
        (BookService.sampleBook [BookService.sampleChapter "b1_chapter_1" true .pending none])
        (.condense "b1_chapter_1" (.error "AI failure"))).status = .failed ∧
    (BookService.handleMessage
        (BookService.sampleBook [BookService.sampleChapter "b1_chapter_1" true .pending none])
        (.condense "b1_chapter_1" (.error "AI failure"))).chapters =
      [BookService.sampleChapter "b1_chapter_1" true .skipped none] ∧
    (BookService.handleMessage
        (BookService.sampleBook [BookService.sampleChapter "b1_chapter_1" true .pending none])
        (.condense "b1_chapter_1" (.error "AI failure"))).error =
      some "Processing failed: AI failure" := by
  decide

/-- Claim C2 (code bug): a chapter the AI marked non-essential is still
dispatched into the condensation fan-out.  `isEssential: info.isEssential
|| true` forces every chapter's essential flag to true, so the fan-out
filter queues all chapters — here a chapter with `isEssential = false` in
the AI response is initialized with status skipped, yet its id is queued
for condensing. -/
theorem skipped_chapter_is_queued_for_condensing :
    (BookService.processChapters
        (BookService.jobStart "b1" "T" none 10 .medium)
        [{ title := "Preface", startPage := 1, endPage := 3, isEssential := false }]).2 =
      ["b1_chapter_1"] ∧
    ((BookService.processChapters
        (BookService.jobStart "b1" "T" none 10 .medium)
        [{ title := "Preface", startPage := 1, endPage := 3, isEssential := false }]).1.chapters.map
      (fun ch => ch.status)) = [.skipped] ∧
    ((BookService.processChapters
        (BookService.jobStart "b1" "T" none 10 .medium)
        [{ title := "Preface", startPage := 1, endPage := 3, isEssential := false }]).1.chapters.map
      (fun ch => ch.isEssential)) = [true] := by
  decide

/-- Counterexample to claim C3: a job whose essential chapters are all
terminal — one ended skipped after exhausted retries, the other just
completed — does not trigger assembly: condenseChapter compares the
completed count against all essential chapters, so the skipped one blocks
combining forever. -/
theorem all_terminal_does_not_queue_combine :
    (BookService.condenseChapter
        (BookService.sampleBook
          [BookService.sampleChapter "c1" true .skipped none,
           BookService.sampleChapter "c2" true .pending none])
        "c2" (.ok ["page1"])).queuedCombine = false ∧
    ((BookService.condenseChapter
        (BookService.sampleBook
          [BookService.sampleChapter "c1" true .skipped none,
           BookService.sampleChapter "c2" true .pending none])
        "c2" (.ok ["page1"])).book.chapters.all
      (fun ch => !ch.isEssential || (ch.status == .completed || ch.status == .skipped))) =
      true := by
  decide

/-- Every element satisfies the filter exactly when filtering loses no
length. -/
theorem length_filter_eq_iff {l : List α} {p : α → Bool} :
    (l.filter p).length = l.length ↔ ∀ a ∈ l, p a = true := by
  induction l with
  | nil => simp
  | cons a t ih =>
    by_cases h : p a = true
    · simp [h, ih]
    · have hle := List.length_filter_le p t
      simp only [List.filter_cons, h, if_neg]
      simp only [Bool.false_eq_true, if_false, List.length_cons]
      constructor
      · intro hlen
        omega
      · intro hall
        exact absurd (hall a (by simp)) h

/-- The count comparison of condenseChapter — completed essential chapters
against all essential chapters — holds exactly when every essential chapter
is completed. -/
theorem essential_count_check_iff (cs : List Chapter) :
    (((cs.filter (fun ch => ch.isEssential)).filter
        (fun ch => ch.status == .completed)).length ==
      (cs.filter (fun ch => ch.isEssential)).length) = true ↔
    ∀ ch ∈ cs, ch.isEssential = true → ch.status = .completed := by
  rw [beq_iff_eq, length_filter_eq_iff]
  constructor
  · intro h ch hch hess
    have := h ch (by rw [List.mem_filter]; exact ⟨hch, hess⟩)
    simpa using this
  · intro h ch hch
    rw [List.mem_filter] at hch
    simpa using h ch hch.1 hch.2

/-- Claim C3 amended: combining is queued exactly when the processed
chapter exists, its condensation succeeded, and afterwards every chapter
whose essential flag holds has status completed.  Essential chapters that
ended skipped — and jobs whose fan-out never dispatched anything — never
trigger assembly. -/
theorem condense_queues_combine_iff (b : Book) (cid : String) (res : Except String Doc) :
    (BookService.condenseChapter b cid res).queuedCombine = true ↔
      ((∃ ch ∈ b.chapters, ch.chapterId = cid) ∧ (∃ d, res = .ok d) ∧
        ∀ ch ∈ (BookService.condenseChapter b cid res).book.chapters,
          ch.isEssential = true → ch.status = .completed) := by
  unfold BookService.condenseChapter
  cases hfind : b.chapters.find? (fun ch => ch.chapterId == cid) with
  | none =>
    simp only []
    constructor
    · intro h
      exact absurd h (by simp)
    · rintro ⟨⟨ch, hmem, hid⟩, -, -⟩
      rw [List.find?_eq_none] at hfind
      exact absurd (by simpa using hid) (by simpa using hfind ch hmem)
  | some ch0 =>
    have hmem0 := List.mem_of_find?_eq_some hfind
    have hid0 : ch0.chapterId = cid := by
      have := List.find?_some hfind
      simpa using this
    cases res with
    | error e =>
      simp only []
      constructor
      · intro h
        exact absurd h (by simp)
      · rintro ⟨-, ⟨d, hd⟩, -⟩
        exact Except.noConfusion hd
    | ok doc =>
      simp only []
      split
      next hq =>
        simp only [true_iff]
        refine ⟨⟨ch0, hmem0, hid0⟩, ⟨doc, rfl⟩, ?_⟩
        exact (essential_count_check_iff _).mp hq
      next hq =>
        simp only [Bool.false_eq_true, false_iff]
        rintro ⟨-, -, hall⟩
        exact hq ((essential_count_check_iff _).mpr hall)

/-- Claim C6: with zero chapters in status completed, assembly fails —
combineCondensedChapters finds nothing to combine, the catch path marks the
job failed with the error detail recorded, the status is not completed and
no output artifact is written. -/
theorem combine_zero_completed_fails (b : Book)
    (h : ∀ ch ∈ b.chapters, ch.status ≠ .completed) :
    (BookService.combineCondensedChapters b).book.status = .failed ∧
    (BookService.combineCondensedChapters b).book.error =
      some "Final assembly failed: No condensed chapters to combine" ∧
    (BookService.combineCondensedChapters b).book.status ≠ .completed ∧
    (BookService.combineCondensedChapters b).book.condensedDoc = b.condensedDoc := by
  have hfil : b.chapters.filter
      (fun ch => ch.status == .completed && ch.condensedDoc.isSome) = [] := by
    rw [List.filter_eq_nil_iff]
    intro ch hch
    simp [h ch hch]
  unfold BookService.combineCondensedChapters
  rw [hfil]
  simp [BookService.markFailed]

/-- Witness for C6: a book whose only chapters ended skipped is marked
failed by assembly, never completed. -/
theorem combine_zero_completed_fails_witness :
    (BookService.combineCondensedChapters
        (BookService.sampleBook
          [BookService.sampleChapter "c1" true .skipped none,
           BookService.sampleChapter "c2" true .skipped none])).book.status = .failed ∧
    (BookService.combineCondensedChapters
        (BookService.sampleBook
          [BookService.sampleChapter "c1" true .skipped none,
           BookService.sampleChapter "c2" true .skipped none])).book.status ≠ .completed := by
  have h := combine_zero_completed_fails
    (BookService.sampleBook
      [BookService.sampleChapter "c1" true .skipped none,
       BookService.sampleChapter "c2" true .skipped none])
    (by decide)
  exact ⟨h.1, h.2.2.1⟩

/-- Witness for the amended C3 theorem: a two-chapter book whose second
chapter completes last does queue combining once both are completed. -/
theorem condense_queues_combine_iff_witness :
    (BookService.condenseChapter
        (BookService.sampleBook
          [BookService.sampleChapter "c1" true .completed (some ["p"]),
           BookService.sampleChapter "c2" true .pending none])
        "c2" (.ok ["q"])).queuedCombine = true :=
  (condense_queues_combine_iff
      (BookService.sampleBook
        [BookService.sampleChapter "c1" true .completed (some ["p"]),
         BookService.sampleChapter "c2" true .pending none])
      "c2" (.ok ["q"])).2
    ⟨⟨BookService.sampleChapter "c2" true .pending none, by decide, by decide⟩,
     ⟨["q"], rfl⟩, by decide⟩

/-- A found first `[` really is a `[` at a valid position. -/
theorem firstOpenBracket_spec {s : List Char} {i : Nat}
    (h : GeminiClient.firstOpenBracket s = some i) :
    i < s.length ∧ s.get? i = some '[' := by
  induction s generalizing i with
  | nil => exact absurd h (by simp [GeminiClient.firstOpenBracket])
  | cons c rest ih =>
    rw [GeminiClient.firstOpenBracket] at h
    by_cases hc : c = '['
    · rw [if_pos hc] at h
      cases h
      simp [hc]
    · rw [if_neg hc] at h
      cases hrec : GeminiClient.firstOpenBracket rest with
      | none =>
        rw [hrec] at h
        exact absurd h (by simp)
      | some j =>
        rw [hrec] at h
        simp only [Option.map_some'] at h
        cases h
        obtain ⟨h1, h2⟩ := ih hrec
        exact ⟨by simpa using Nat.succ_lt_succ h1, by simpa using h2⟩

/-- A found last `]` really is a `]` at a valid position. -/
theorem lastCloseBracket_spec {s : List Char} {j : Nat}
    (h : GeminiClient.lastCloseBracket s = some j) :
    j < s.length ∧ s.get? j = some ']' := by
  induction s generalizing j with
  | nil => exact absurd h (by simp [GeminiClient.lastCloseBracket])
  | cons c rest ih =>
    rw [GeminiClient.lastCloseBracket] at h
    cases hrec : GeminiClient.lastCloseBracket rest with
    | some k =>
      rw [hrec] at h
      cases h
      obtain ⟨h1, h2⟩ := ih hrec
      exact ⟨by simpa using Nat.succ_lt_succ h1, by simpa using h2⟩
    | none =>
      rw [hrec] at h
      by_cases hc : c = ']'
      · rw [if_pos hc] at h
        cases h
        simp [hc]
      · rw [if_neg hc] at h
        exact absurd h (by simp)

/-- Without a `[` followed somewhere later by a `]`, the regex of
identifyChapters has no match. -/
theorem extractJsonArray_eq_none {s : List Char}
    (h : ∀ j, j < s.length → ∀ i, i < j →
      s.get? i = some '[' → s.get? j ≠ some ']') :
    GeminiClient.extractJsonArray s = none := by
  unfold GeminiClient.extractJsonArray
  cases hf : GeminiClient.firstOpenBracket s with
  | none => rfl
  | some i =>
    cases hl : GeminiClient.lastCloseBracket s with
    | none => rfl
    | some j =>
      obtain ⟨hi1, hi2⟩ := firstOpenBracket_spec hf
      obtain ⟨hj1, hj2⟩ := lastCloseBracket_spec hl
      have hnot : ¬ i < j := fun hij => h j hj1 i hij hi2 hj2
      simp only []
      rw [if_neg hnot]

/-- Claim C8: when the AI response to the segmentation prompt contains no
array-shaped structure — no `[` with a `]` anywhere behind it — chapter
identification fails, processChapters marks the job failed with the parse
error recorded, leaves the chapter list untouched, and queues nothing. -/
theorem malformed_segmentation_fails_job (b : Book) (response : List Char)
    (jsonParse : List Char → Option (List ChapterInfo))
    (h : ∀ j, j < response.length → ∀ i, i < j →
      response.get? i = some '[' → response.get? j ≠ some ']') :
    (BookService.processChaptersFromText b response jsonParse).1.status = .failed ∧
    (BookService.processChaptersFromText b response jsonParse).1.chapters = b.chapters ∧
    (BookService.processChaptersFromText b response jsonParse).2 = [] ∧
    (BookService.processChaptersFromText b response jsonParse).1.error =
      some "Chapter processing failed: No valid JSON found in AI response" := by
  unfold BookService.processChaptersFromText BookService.processChaptersE
    GeminiClient.identifyChapters
  rw [extractJsonArray_eq_none h]
  simp [BookService.markFailed]

/-- Witness for C8: a bracket-free model answer fails segmentation and the
job is marked failed with no chapters and nothing queued, whatever the JSON
library would have said. -/
theorem malformed_segmentation_fails_job_witness :
    (BookService.processChaptersFromText
        (BookService.jobStart "b1" "T" none 10 .medium)
        ("no json here".toList) (fun _ => none)).1.status = .failed ∧
    (BookService.processChaptersFromText
        (BookService.jobStart "b1" "T" none 10 .medium)
        ("no json here".toList) (fun _ => none)).1.chapters = [] ∧
    (BookService.processChaptersFromText
        (BookService.jobStart "b1" "T" none 10 .medium)
        ("no json here".toList) (fun _ => none)).2 = [] := by
  have h := malformed_segmentation_fails_job
    (BookService.jobStart "b1" "T" none 10 .medium)
    ("no json here".toList) (fun _ => none) (by decide)
  exact ⟨h.1, h.2.1, h.2.2.1⟩

/-- Claim C9 amended: the loader rejects a buffer exactly when the `%PDF`
header check fails, the size is below 1KB, or the size is above 100MB; and
the upload fails whenever the page count cannot be determined.  A
determinable page count of zero, however, is accepted and recorded as 0 —
the source has no zero-page check (the original claim's `or is zero` part
fails, see the counterexample). -/
theorem upload_validation_characterization :
    (∀ bytes : List Char,
      (PdfProcessor.validatePdf bytes).1 = false ↔
        (bytes.take 4 ≠ ['%', 'P', 'D', 'F'] ∨
         bytes.length < 1024 ∨
         bytes.length > 100 * 1024 * 1024)) ∧
    (∀ (b : Book) (buf : BookService.PdfBuffer) (meta : BookService.BookMetadata),
      buf.parsed = none →
        (BookService.uploadOriginalPdf b buf meta).status = .failed) := by
  constructor
  · intro bytes
    unfold PdfProcessor.validatePdf
    by_cases h1 : bytes.take 4 = ['%', 'P', 'D', 'F']
    · rw [if_neg (by simpa using h1)]
      by_cases h2 : bytes.length < 1024
      · rw [if_pos h2]
        simp [h1, h2]
      · rw [if_neg h2]
        by_cases h3 : bytes.length > 100 * 1024 * 1024
        · rw [if_pos h3]
          simp [h1, h2, h3]
        · rw [if_neg h3]
          simp [h1, h2, h3]
    · rw [if_pos (by simpa using h1)]
      simp [h1]
  · intro b buf meta hparsed
    unfold BookService.uploadOriginalPdf
    by_cases hv : (PdfProcessor.validatePdf buf.bytes).1 = false
    · rw [if_pos hv]
      rfl
    · rw [if_neg hv]
      cases htext : buf.parsedText with
      | none => rfl
      | some t =>
        rw [hparsed]
        rfl

/-- Witness for the amended C9 theorem: a header-less buffer is rejected,
and a buffer whose page count cannot be determined fails the upload. -/
theorem upload_validation_characterization_witness :
    ((PdfProcessor.validatePdf ['x']).1 = false ↔
      ((['x'] : List Char).take 4 ≠ ['%', 'P', 'D', 'F'] ∨
       (['x'] : List Char).length < 1024 ∨
       (['x'] : List Char).length > 100 * 1024 * 1024)) ∧
    (BookService.uploadOriginalPdf BookService.sampleFreshBook
        { bytes := ['%', 'P', 'D', 'F'] ++ List.replicate 1020 'a'
          parsedText := some "text"
          parsed := none }
        { title := none, author := none }).status = .failed :=
  ⟨upload_validation_characterization.1 ['x'],
   upload_validation_characterization.2 BookService.sampleFreshBook
     { bytes := ['%', 'P', 'D', 'F'] ++ List.replicate 1020 'a'
       parsedText := some "text"
       parsed := none }
     { title := none, author := none } rfl⟩

set_option maxRecDepth 8000 in
/-- Counterexample to claim C9: a well-formed buffer whose loaded document
has zero pages is not rejected — the upload succeeds, the job moves to
queued and pageCount 0 is recorded, though the claim requires loading to
fail on a zero page count. -/
theorem zero_page_count_is_accepted :
    (BookService.uploadOriginalPdf BookService.sampleFreshBook
        { bytes := ['%', 'P', 'D', 'F'] ++ List.replicate 1020 'a'
          parsedText := some "text"
          parsed := some [] }
        { title := none, author := none }).status = .queued ∧
    (BookService.uploadOriginalPdf BookService.sampleFreshBook
        { bytes := ['%', 'P', 'D', 'F'] ++ List.replicate 1020 'a'
          parsedText := some "text"
          parsed := some [] }
        { title := none, author := none }).pageCount = 0 ∧
    (BookService.uploadOriginalPdf BookService.sampleFreshBook
        { bytes := ['%', 'P', 'D', 'F'] ++ List.replicate 1020 'a'
          parsedText := some "text"
          parsed := some [] }
        { title := none, author := none }).status ≠ .failed := by
  decide

/-- updateFirst with a predicate matching nothing changes nothing. -/
theorem updateFirst_of_find?_none {p : α → Bool} {l : List α} (f : α → α)
    (h : l.find? p = none) : BookService.updateFirst p f l = l := by
  induction l with
  | nil => rfl
  | cons a t ih =>
    rw [List.find?_cons] at h
    cases hp : p a with
    | true => rw [hp] at h; exact Option.noConfusion h
    | false =>
      rw [hp] at h
      rw [BookService.updateFirst, if_neg (by simp [hp]), ih h]

/-- Two first-match updates with the same predicate compose, provided the
first update does not change who matches. -/
theorem updateFirst_updateFirst {p : α → Bool} (f g : α → α)
    (hpg : ∀ a, p (g a) = p a) (l : List α) :
    BookService.updateFirst p f (BookService.updateFirst p g l) =
      BookService.updateFirst p (fun a => f (g a)) l := by
  induction l with
  | nil => rfl
  | cons a t ih =>
    by_cases hp : p a = true
    · rw [BookService.updateFirst, if_pos hp, BookService.updateFirst,
        if_pos (by rw [hpg a]; exact hp), BookService.updateFirst, if_pos hp]
    · rw [BookService.updateFirst, if_neg hp, BookService.updateFirst, if_neg hp,
        BookService.updateFirst, if_neg hp, ih]

/-- First-match updates keyed on disjoint predicates commute, provided
neither update changes who matches. -/
theorem updateFirst_comm {p q : α → Bool} (f g : α → α)
    (hpq : ∀ a, p a = true → q a = false)
    (hqf : ∀ a, q (f a) = q a) (hpg : ∀ a, p (g a) = p a) (l : List α) :
    BookService.updateFirst p f (BookService.updateFirst q g l) =
      BookService.updateFirst q g (BookService.updateFirst p f l) := by
  induction l with
  | nil => rfl
  | cons a t ih =>
    by_cases hp : p a = true
    · have hq : q a = false := hpq a hp
      rw [BookService.updateFirst, if_neg (by simp [hq]),
        BookService.updateFirst, if_pos hp,
        BookService.updateFirst, if_pos hp,
        BookService.updateFirst, if_neg (by simp [hqf a, hq])]
    · by_cases hq : q a = true
      · rw [BookService.updateFirst, if_pos hq,
          BookService.updateFirst, if_neg (by simp [hpg a]; simpa using hp),
          BookService.updateFirst, if_neg hp,
          BookService.updateFirst, if_pos hq]
      · rw [BookService.updateFirst, if_neg (by simpa using hq),
          BookService.updateFirst, if_neg hp,
          BookService.updateFirst, if_neg hp,
          BookService.updateFirst, if_neg (by simpa using hq), ih]

/-- The chapter-list effect of one successful condensation: the first
chapter with the given id becomes completed with its artifact recorded;
nothing else changes, and books without that chapter are untouched. -/
theorem condense_ok_chapters (b : Book) (cid : String) (doc : Doc) :
    ((BookService.condenseChapter b cid (.ok doc)).book).chapters =
      BookService.updateFirst (fun ch => ch.chapterId == cid)
        (fun ch => { ch with status := .completed, condensedDoc := some doc })
        b.chapters := by
  unfold BookService.condenseChapter
  cases hfind : b.chapters.find? (fun ch => ch.chapterId == cid) with
  | none =>
    have h2 : BookService.updateFirst (fun ch => ch.chapterId == cid)
        (fun ch => { ch with status := ChapterStatus.completed, condensedDoc := some doc })
        b.chapters = b.chapters := updateFirst_of_find?_none _ hfind
    rw [h2]
  | some ch0 =>
    have h2 := updateFirst_updateFirst
      (p := fun ch => ch.chapterId == cid)
      (fun ch => { ch with status := ChapterStatus.completed, condensedDoc := some doc })
      (fun ch => { ch with status := ChapterStatus.processing })
      (fun a => rfl) b.chapters
    dsimp only []
    split <;> exact h2

/-- Successful condensations leave every book field other than chapters,
progress and the step string alone; in particular the final artifact slot
is untouched. -/
theorem condense_ok_condensedDoc (b : Book) (cid : String) (doc : Doc) :
    ((BookService.condenseChapter b cid (.ok doc)).book).condensedDoc = b.condensedDoc := by
  unfold BookService.condenseChapter
  cases hfind : b.chapters.find? (fun ch => ch.chapterId == cid) with
  | none => rfl
  | some ch0 =>
    simp only []
    split
    next => rfl
    next => rfl

/-- A first-match update that keeps ids keeps the id sequence. -/
theorem updateFirst_map_chapterId {p : Chapter → Bool} (f : Chapter → Chapter)
    (hf : ∀ ch, (f ch).chapterId = ch.chapterId) (l : List Chapter) :
    (BookService.updateFirst p f l).map (fun ch => ch.chapterId) =
      l.map (fun ch => ch.chapterId) := by
  induction l with
  | nil => rfl
  | cons a t ih =>
    by_cases hp : p a = true
    · rw [BookService.updateFirst, if_pos hp]
      simp [hf a]
    · rw [BookService.updateFirst, if_neg hp]
      simp only [List.map_cons]
      rw [ih]

/-- The chapter-list effect of a whole completion sequence, folded at the
chapter-list level. -/
theorem applyCompletions_chapters (b : Book) (l : List (String × Doc)) :
    (BookService.applyCompletions b l).chapters =
      l.foldl (fun cs x =>
        BookService.updateFirst (fun ch => ch.chapterId == x.1)
          (fun ch => { ch with status := .completed, condensedDoc := some x.2 }) cs)
        b.chapters := by
  induction l generalizing b with
  | nil => rfl
  | cons x t ih =>
    unfold BookService.applyCompletions at ih ⊢
    rw [List.foldl_cons, List.foldl_cons, ih, condense_ok_chapters]

/-- Completion sequences never touch the final artifact slot. -/
theorem applyCompletions_condensedDoc (b : Book) (l : List (String × Doc)) :
    (BookService.applyCompletions b l).condensedDoc = b.condensedDoc := by
  induction l generalizing b with
  | nil => rfl
  | cons x t ih =>
    unfold BookService.applyCompletions at ih ⊢
    rw [List.foldl_cons, ih, condense_ok_condensedDoc]

/-- Folding completion updates over the chapter list is invariant under
permuting the completion order, as long as no chapter id completes
twice. -/
theorem foldl_completion_perm {l1 l2 : List (String × Doc)} (hperm : l1.Perm l2) :
    (l1.map Prod.fst).Nodup → ∀ cs : List Chapter,
      l1.foldl (fun cs x =>
        BookService.updateFirst (fun ch => ch.chapterId == x.1)
          (fun ch => { ch with status := .completed, condensedDoc := some x.2 }) cs) cs =
      l2.foldl (fun cs x =>
        BookService.updateFirst (fun ch => ch.chapterId == x.1)
          (fun ch => { ch with status := .completed, condensedDoc := some x.2 }) cs) cs := by
  induction hperm with
  | nil => intro _ cs; rfl
  | cons x hperm ih =>
    intro hnd cs
    rw [List.foldl_cons, List.foldl_cons]
    exact ih (by simpa using (List.nodup_cons.mp (by simpa using hnd)).2) _
  | swap x y l =>
    intro hnd cs
    have hxy : y.1 ≠ x.1 := by
      simp only [List.map_cons, List.nodup_cons] at hnd
      exact fun h => hnd.1 (by simp [h])
    rw [List.foldl_cons, List.foldl_cons, List.foldl_cons, List.foldl_cons]
    congr 1
    refine updateFirst_comm
      (p := fun ch => ch.chapterId == x.1) (q := fun ch => ch.chapterId == y.1)
      (fun ch => { ch with status := ChapterStatus.completed, condensedDoc := some x.2 })
      (fun ch => { ch with status := ChapterStatus.completed, condensedDoc := some y.2 })
      (fun ch h => ?_) (fun ch => rfl) (fun ch => rfl) cs
    rw [beq_eq_false_iff_ne]
    rw [beq_iff_eq] at h
    intro hy
    exact hxy (by rw [← hy, h])
  | trans h1 h2 ih1 ih2 =>
    intro hnd cs
    rw [ih1 hnd cs]
    exact ih2 (((h1.map Prod.fst).nodup_iff).mp hnd) cs

/-- Claim C5: for every order in which chapters complete condensation, the
chapter list keeps its original ids in their original positions, the final
chapter state does not depend on the completion order, and the assembled
output — the concatenation of the completed chapters' artifacts taken from
the chapter list — is therefore identical for every completion order:
original chapter index order, not completion order. -/
theorem assembly_order_invariant (b : Book) (l1 l2 : List (String × Doc))
    (hperm : l1.Perm l2) (hnd : (l1.map Prod.fst).Nodup) :
    ((BookService.applyCompletions b l1).chapters.map (fun ch => ch.chapterId) =
      b.chapters.map (fun ch => ch.chapterId)) ∧
    (BookService.applyCompletions b l1).chapters =
      (BookService.applyCompletions b l2).chapters ∧
    (BookService.combineCondensedChapters
        (BookService.applyCompletions b l1)).book.condensedDoc =
      (BookService.combineCondensedChapters
        (BookService.applyCompletions b l2)).book.condensedDoc := by
  have hids : ∀ l : List (String × Doc),
      (BookService.applyCompletions b l).chapters.map (fun ch => ch.chapterId) =
        b.chapters.map (fun ch => ch.chapterId) := by
    intro l
    rw [applyCompletions_chapters]
    induction l generalizing b with
    | nil => rfl
    | cons x t ih =>
      rw [List.foldl_cons]
      have step := updateFirst_map_chapterId
        (p := fun ch => ch.chapterId == x.1)
        (fun ch => { ch with status := .completed, condensedDoc := some x.2 })
        (fun ch => rfl) b.chapters
      calc (t.foldl _ (BookService.updateFirst _ _ b.chapters)).map (fun ch => ch.chapterId)
          = (BookService.updateFirst (fun ch => ch.chapterId == x.1)
              (fun ch => { ch with status := .completed, condensedDoc := some x.2 })
              b.chapters).map (fun ch => ch.chapterId) := by
            exact ih (b := { b with chapters := BookService.updateFirst _ _ b.chapters })
        _ = b.chapters.map (fun ch => ch.chapterId) := step
  have hch : (BookService.applyCompletions b l1).chapters =
      (BookService.applyCompletions b l2).chapters := by
    rw [applyCompletions_chapters, applyCompletions_chapters]
    exact foldl_completion_perm hperm hnd b.chapters
  refine ⟨hids l1, hch, ?_⟩
  have hd1 := applyCompletions_condensedDoc b l1
  have hd2 := applyCompletions_condensedDoc b l2
  unfold BookService.combineCondensedChapters
  simp only [hch]
  split
  next =>
    simp [BookService.markFailed, hd1, hd2]
  next => rfl

/-- Witness for C5: two chapters completing in either order leave the same
chapter list and the same assembled output, with ids in original
positions. -/
theorem assembly_order_invariant_witness :
    ((BookService.applyCompletions
        (BookService.sampleBook
          [BookService.sampleChapter "c1" true .pending none,
           BookService.sampleChapter "c2" true .pending none])
        [("c1", ["p1"]), ("c2", ["p2"])]).chapters.map (fun ch => ch.chapterId) =
      [("c1" : String), "c2"]) ∧
    (BookService.combineCondensedChapters
        (BookService.applyCompletions
          (BookService.sampleBook
            [BookService.sampleChapter "c1" true .pending none,
             BookService.sampleChapter "c2" true .pending none])
          [("c1", ["p1"]), ("c2", ["p2"])])).book.condensedDoc =
      (BookService.combineCondensedChapters
        (BookService.applyCompletions
          (BookService.sampleBook
            [BookService.sampleChapter "c1" true .pending none,
             BookService.sampleChapter "c2" true .pending none])
          [("c2", ["p2"]), ("c1", ["p1"])])).book.condensedDoc := by
  have h := assembly_order_invariant
    (BookService.sampleBook
      [BookService.sampleChapter "c1" true .pending none,
       BookService.sampleChapter "c2" true .pending none])
    [("c1", ["p1"]), ("c2", ["p2"])] [("c2", ["p2"]), ("c1", ["p1"])]
    (by decide) (by decide)
  refine ⟨?_, h.2.2⟩
  rw [h.1]
  decide

/-- A first-match update never changes the number of chapters. -/
theorem updateFirst_length (p : α → Bool) (f : α → α) (l : List α) :
    (BookService.updateFirst p f l).length = l.length := by
  induction l with
  | nil => rfl
  | cons a t ih =>
    by_cases hp : p a = true
    · rw [BookService.updateFirst, if_pos hp]
      simp
    · rw [BookService.updateFirst, if_neg hp]
      simp [ih]

/-- A first-match update that keeps the essential flag keeps the all-flags
invariant. -/
theorem updateFirst_isEssential {p : Chapter → Bool} (f : Chapter → Chapter)
    (hf : ∀ ch, (f ch).isEssential = ch.isEssential) {l : List Chapter}
    (h : ∀ ch ∈ l, ch.isEssential = true) :
    ∀ ch ∈ BookService.updateFirst p f l, ch.isEssential = true := by
  induction l with
  | nil => intro ch hch; exact absurd hch (by simp [BookService.updateFirst])
  | cons a t ih =>
    intro ch hch
    by_cases hp : p a = true
    · rw [BookService.updateFirst, if_pos hp] at hch
      rcases List.mem_cons.mp hch with h1 | h1
      · rw [h1, hf a]
        exact h a (by simp)
      · exact h ch (by simp [h1])
    · rw [BookService.updateFirst, if_neg hp] at hch
      rcases List.mem_cons.mp hch with h1 | h1
      · rw [h1]
        exact h a (by simp)
      · exact ih (fun c hc => h c (by simp [hc])) ch h1

/-- Marking one chapter completed never lowers the completed count. -/
theorem completed_count_le_updateFirst (p : Chapter → Bool) (doc : Doc)
    (l : List Chapter) :
    (l.filter (fun ch => ch.status == ChapterStatus.completed)).length ≤
      ((BookService.updateFirst p
          (fun ch => { ch with status := ChapterStatus.completed, condensedDoc := some doc })
          l).filter (fun ch => ch.status == ChapterStatus.completed)).length := by
  induction l with
  | nil => exact Nat.le_refl _
  | cons a t ih =>
    by_cases hp : p a = true
    · rw [BookService.updateFirst, if_pos hp]
      by_cases ha : (a.status == ChapterStatus.completed) = true
      · simp [List.filter_cons, ha]
      · simp [List.filter_cons, ha]
    · rw [BookService.updateFirst, if_neg hp]
      by_cases ha : (a.status == ChapterStatus.completed) = true
      · simpa [List.filter_cons, ha] using ih
      · simpa [List.filter_cons, ha] using ih

/-- Math.round of the 60-point condensation share is monotone in the
completed count. -/
theorem roundSixty_mono {c1 c2 e : Nat} (h : c1 ≤ c2) :
    BookService.roundSixty c1 e ≤ BookService.roundSixty c2 e :=
  Nat.div_le_div_right (by omega)

/-- Math.round of the 60-point condensation share never exceeds 60 while
the completed count stays within the essential count. -/
theorem roundSixty_le_sixty {c e : Nat} (h : c ≤ e) :
    BookService.roundSixty c e ≤ 60 := by
  cases e with
  | zero =>
    unfold BookService.roundSixty
    simp
  | succ n =>
    unfold BookService.roundSixty
    have h2 : 0 < 2 * (n + 1) := by omega
    have h3 : (120 * c + (n + 1)) / (2 * (n + 1)) < 61 := by
      rw [Nat.div_lt_iff_lt_mul h2]
      omega
    omega

/-- A successful condensation leaves the job status untouched. -/
theorem condense_ok_status (b : Book) (cid : String) (doc : Doc) :
    ((BookService.condenseChapter b cid (.ok doc)).book).status = b.status := by
  unfold BookService.condenseChapter
  cases hfind : b.chapters.find? (fun ch => ch.chapterId == cid) with
  | none => rfl
  | some ch0 =>
    dsimp only []
    split <;> rfl

/-- A successful condensation either throws nothing, or throws only the
missing-chapter error without touching the book. -/
theorem condense_ok_thrown (b : Book) (cid : String) (doc : Doc) :
    (BookService.condenseChapter b cid (.ok doc)).thrown = none ∨
    ((BookService.condenseChapter b cid (.ok doc)).book = b ∧
      (BookService.condenseChapter b cid (.ok doc)).thrown = some "Chapter not found") := by
  unfold BookService.condenseChapter
  cases hfind : b.chapters.find? (fun ch => ch.chapterId == cid) with
  | none => exact Or.inr ⟨rfl, rfl⟩
  | some ch0 =>
    dsimp only []
    split
    next => exact Or.inl rfl
    next => exact Or.inl rfl

/-- A successful condensation either leaves progress alone (when it queues
combining) or writes the milestone computed from the updated chapter
list. -/
theorem condense_ok_progress (b : Book) (cid : String) (doc : Doc) :
    ((BookService.condenseChapter b cid (.ok doc)).book).progress = b.progress ∨
    ((BookService.condenseChapter b cid (.ok doc)).book).progress =
      30 + BookService.roundSixty
        (((BookService.updateFirst (fun ch => ch.chapterId == cid)
            (fun ch => { ch with status := .completed, condensedDoc := some doc })
            b.chapters).filter (fun ch => ch.isEssential)).filter
          (fun ch => ch.status == ChapterStatus.completed)).length
        ((BookService.updateFirst (fun ch => ch.chapterId == cid)
            (fun ch => { ch with status := .completed, condensedDoc := some doc })
            b.chapters).filter (fun ch => ch.isEssential)).length := by
  unfold BookService.condenseChapter
  cases hfind : b.chapters.find? (fun ch => ch.chapterId == cid) with
  | none => exact Or.inl rfl
  | some ch0 =>
    have h2 := updateFirst_updateFirst
      (p := fun ch => ch.chapterId == cid)
      (fun ch => { ch with status := ChapterStatus.completed, condensedDoc := some doc })
      (fun ch => { ch with status := ChapterStatus.processing })
      (fun a => rfl) b.chapters
    dsimp only []
    rw [h2]
    split
    next => exact Or.inl rfl
    next => exact Or.inr rfl

/-- A failed condensation always re-throws. -/
theorem condense_err_thrown (b : Book) (cid : String) (e : String) :
    ∃ m, (BookService.condenseChapter b cid (.error e)).thrown = some m := by
  unfold BookService.condenseChapter
  cases hfind : b.chapters.find? (fun ch => ch.chapterId == cid) with
  | none => exact ⟨_, rfl⟩
  | some ch0 => exact ⟨_, rfl⟩

/-- A failed condensation leaves the job status untouched (the handler, not
the service method, marks the book). -/
theorem condense_err_status (b : Book) (cid : String) (e : String) :
    ((BookService.condenseChapter b cid (.error e)).book).status = b.status := by
  unfold BookService.condenseChapter
  cases hfind : b.chapters.find? (fun ch => ch.chapterId == cid) with
  | none => rfl
  | some ch0 => rfl

/-- A failed condensation leaves the stored progress untouched. -/
theorem condense_err_progress (b : Book) (cid : String) (e : String) :
    ((BookService.condenseChapter b cid (.error e)).book).progress = b.progress := by
  unfold BookService.condenseChapter
  cases hfind : b.chapters.find? (fun ch => ch.chapterId == cid) with
  | none => rfl
  | some ch0 => rfl

/-- A failed condensation only rewrites chapter statuses, so the all-flags
invariant survives. -/
theorem condense_err_flags (b : Book) (cid : String) (e : String)
    (h : ∀ ch ∈ b.chapters, ch.isEssential = true) :
    ∀ ch ∈ ((BookService.condenseChapter b cid (.error e)).book).chapters,
      ch.isEssential = true := by
  unfold BookService.condenseChapter
  cases hfind : b.chapters.find? (fun ch => ch.chapterId == cid) with
  | none => exact h
  | some ch0 =>
    exact updateFirst_isEssential
      (fun ch => { ch with status := ChapterStatus.skipped })
      (fun ch => rfl)
      (updateFirst_isEssential
        (fun ch => { ch with status := ChapterStatus.processing })
        (fun ch => rfl) h)

/-- The processing-queue handler on a combine message either double-marks
the book failed (nothing to combine, service catch plus handler catch) or
stores the completed book at progress 100. -/
theorem handle_combine (b : Book) :
    BookService.handleMessage b .combine =
      BookService.markFailed
        (BookService.markFailed b "Final assembly failed: No condensed chapters to combine")
        "Processing failed: No condensed chapters to combine" ∨
    BookService.handleMessage b .combine =
      { b with
        status := .completed
        progress := 100
        currentStep := "Condensed book ready for download!"
        condensedDoc := some (PdfProcessor.combineChapters
          ((b.chapters.filter (fun ch => ch.status == ChapterStatus.completed &&
            ch.condensedDoc.isSome)).filterMap (fun ch => ch.condensedDoc))) } := by
  unfold BookService.handleMessage BookService.combineCondensedChapters
  dsimp only []
  by_cases hz : ((List.filter
      (fun ch => ch.status == ChapterStatus.completed && ch.condensedDoc.isSome)
      b.chapters).length == 0) = true
  · rw [if_pos hz]
    exact Or.inl rfl
  · rw [if_neg hz]
    exact Or.inr rfl

/-- One processing-queue message preserves the trace invariant and, while
the job is processing, never lowers the stored progress. -/
theorem handle_step_inv (b : Book) (e : BookService.ChapterEvent)
    (hInv : BookService.ProgressInv b) :
    BookService.ProgressInv (BookService.handleMessage b e) ∧
    (b.status = .processing →
      b.progress ≤ (BookService.handleMessage b e).progress) := by
  obtain ⟨hflags, hrep⟩ := hInv
  cases e with
  | combine =>
    rcases handle_combine b with h | h <;> rw [h]
    · refine ⟨⟨hflags, ?_⟩, ?_⟩
      · intro hst
        exact absurd hst (by simp [BookService.markFailed])
      · intro _
        exact Nat.le_refl _
    · refine ⟨⟨hflags, ?_⟩, ?_⟩
      · intro hst
        exact absurd hst (by simp)
      · intro hproc
        show b.progress ≤ 100
        rcases hrep hproc with h25 | ⟨c, hc, hpr⟩
        · omega
        · have hce : c ≤ b.chapters.length :=
            Nat.le_trans hc (List.length_filter_le _ _)
          have h60 := roundSixty_le_sixty hce
          omega
  | condense cid res =>
    cases res with
    | error e =>
      obtain ⟨m, hm⟩ := condense_err_thrown b cid e
      unfold BookService.handleMessage
      dsimp only []
      rw [hm]
      refine ⟨⟨?_, ?_⟩, ?_⟩
      · exact condense_err_flags b cid e hflags
      · intro hst
        exact absurd hst (by simp [BookService.markFailed])
      · intro _
        exact Nat.le_of_eq (condense_err_progress b cid e).symm
    | ok doc =>
      rcases condense_ok_thrown b cid doc with hthr | ⟨hbook, hthr⟩
      · unfold BookService.handleMessage
        dsimp only []
        rw [hthr]
        have hflagsNew : ∀ ch ∈ (BookService.condenseChapter b cid (.ok doc)).book.chapters,
            ch.isEssential = true := by
          rw [condense_ok_chapters]
          exact updateFirst_isEssential
            (fun ch => { ch with status := ChapterStatus.completed, condensedDoc := some doc })
            (fun ch => rfl) hflags
        constructor
        · refine ⟨hflagsNew, ?_⟩
          intro hst
          have hstb : b.status = .processing := by
            rw [← condense_ok_status b cid doc]
            exact hst
          rcases condense_ok_progress b cid doc with hpr | hpr
          · rcases hrep hstb with h25 | ⟨c, hc, hp2⟩
            · exact Or.inl (by rw [hpr]; exact h25)
            · refine Or.inr ⟨c, ?_, ?_⟩
              · rw [condense_ok_chapters]
                exact Nat.le_trans hc
                  (completed_count_le_updateFirst (fun ch => ch.chapterId == cid) doc b.chapters)
              · rw [hpr, hp2, condense_ok_chapters, updateFirst_length]
          · have hfe : ((BookService.condenseChapter b cid (.ok doc)).book.chapters.filter
                (fun ch => ch.isEssential)) =
                (BookService.condenseChapter b cid (.ok doc)).book.chapters :=
              List.filter_eq_self.mpr (fun a ha => hflagsNew a ha)
            refine Or.inr
              ⟨(((BookService.condenseChapter b cid (.ok doc)).book.chapters).filter
                  (fun ch => ch.status == ChapterStatus.completed)).length,
                Nat.le_refl _, ?_⟩
            rw [hpr, ← condense_ok_chapters b cid doc, hfe]
        · intro hproc
          rcases condense_ok_progress b cid doc with hpr | hpr
          · exact Nat.le_of_eq hpr.symm
          · rw [hpr]
            have hflagsU : ∀ ch ∈ BookService.updateFirst (fun ch => ch.chapterId == cid)
                (fun ch => { ch with status := ChapterStatus.completed, condensedDoc := some doc })
                b.chapters, ch.isEssential = true :=
              updateFirst_isEssential
                (fun ch => { ch with status := ChapterStatus.completed, condensedDoc := some doc })
                (fun ch => rfl) hflags
            have hfe2 : (BookService.updateFirst (fun ch => ch.chapterId == cid)
                (fun ch => { ch with status := ChapterStatus.completed, condensedDoc := some doc })
                b.chapters).filter (fun ch => ch.isEssential) =
                BookService.updateFirst (fun ch => ch.chapterId == cid)
                  (fun ch => { ch with status := ChapterStatus.completed, condensedDoc := some doc })
                  b.chapters :=
              List.filter_eq_self.mpr (fun a ha => hflagsU a ha)
            rw [hfe2, updateFirst_length]
            rcases hrep hproc with h25 | ⟨c, hc, hp2⟩
            · omega
            · have hcc : c ≤ ((BookService.updateFirst (fun ch => ch.chapterId == cid)
                  (fun ch => { ch with status := ChapterStatus.completed, condensedDoc := some doc })
                  b.chapters).filter (fun ch => ch.status == ChapterStatus.completed)).length :=
                Nat.le_trans hc
                  (completed_count_le_updateFirst (fun ch => ch.chapterId == cid) doc b.chapters)
              have hmono := roundSixty_mono (e := b.chapters.length) hcc
              omega
      · unfold BookService.handleMessage
        dsimp only []
        rw [hthr, hbook]
        refine ⟨⟨hflags, ?_⟩, ?_⟩
        · intro hst
          exact absurd hst (by simp [BookService.markFailed])
        · intro _
          exact Nat.le_refl _

/-- Along any scanl trace of processing-queue messages from an invariant
state, progress never drops while the status reads processing. -/
theorem chain_scanl_handle (b : Book) (events : List BookService.ChapterEvent)
    (hInv : BookService.ProgressInv b) :
    List.Chain' (fun x y => x.status = BookStatus.processing → x.progress ≤ y.progress)
      (List.scanl BookService.handleMessage b events) := by
  induction events generalizing b with
  | nil =>
    rw [List.scanl_nil]
    exact List.chain'_singleton b
  | cons e t ih =>
    rw [List.scanl_cons]
    refine List.chain'_cons'.mpr ⟨?_, ih _ (handle_step_inv b e hInv).1⟩
    intro y hy
    have hhead : (List.scanl BookService.handleMessage (BookService.handleMessage b e) t).head? =
        some (BookService.handleMessage b e) := by
      cases t <;> rfl
    simp only [List.append_eq, List.nil_append] at hy
    rw [hhead] at hy
    rcases Option.mem_some_iff.mp hy with rfl
    exact (handle_step_inv b e hInv).2

/-- Claim C4: for any segmentation outcome and any sequence of
chapter-status transitions processed in order — condensation successes,
condensation failures, and combine messages — the progress recorded on the
job is monotonic non-decreasing at every point where the job status is
processing. -/
theorem progress_monotonic (bookId title : String) (author : Option String)
    (pageCount : Nat) (level : CondensingLevel)
    (segRes : Except String (List ChapterInfo))
    (events : List BookService.ChapterEvent) :
    List.Chain' (fun x y => x.status = BookStatus.processing → x.progress ≤ y.progress)
      (BookService.jobStart bookId title author pageCount level ::
        List.scanl BookService.handleMessage
          (BookService.processChaptersE
            (BookService.jobStart bookId title author pageCount level) segRes).1
          events) := by
  refine List.chain'_cons'.mpr ⟨?_, chain_scanl_handle _ events ?_⟩
  · intro y hy
    have hhead : (List.scanl BookService.handleMessage
        (BookService.processChaptersE
          (BookService.jobStart bookId title author pageCount level) segRes).1 events).head? =
        some (BookService.processChaptersE
          (BookService.jobStart bookId title author pageCount level) segRes).1 := by
      cases events <;> rfl
    rw [hhead] at hy
    rcases Option.mem_some_iff.mp hy with rfl
    intro _
    cases segRes with
    | error e =>
      show (10 : Nat) ≤ 10
      exact Nat.le_refl _
    | ok infos =>
      show (10 : Nat) ≤ 25
      omega
  · cases segRes with
    | error e =>
      refine ⟨?_, ?_⟩
      · intro ch hch
        exact absurd hch (by simp [BookService.processChaptersE,
          BookService.markFailed, BookService.jobStart])
      · intro hst
        exact absurd hst (by simp [BookService.processChaptersE,
          BookService.markFailed, BookService.jobStart])
    | ok infos =>
      refine ⟨?_, ?_⟩
      · intro ch hch
        simp only [BookService.processChaptersE, BookService.processChapters] at hch
        obtain ⟨p, hp, hchp⟩ := List.mem_map.mp hch
        rw [← hchp]
        simp
      · intro _
        exact Or.inl (by
          show (25 : Nat) ≤ 25
          exact Nat.le_refl _)

end Theorems

end Bookomol
